import Mathlib

/-!
Verification development for the AliceVision panorama bundle adjustment
(`src/aliceVision/sfm/BundleAdjustmentPanoramaCeres.cpp`): a shallow
embedding of the intrinsics local parameterization, the three custom cost
functions (rotation prior, pinhole reprojection, equidistant reprojection),
the problem-assembly routines and the statistics export, together with
theorems about the properties the specification states.

Machine doubles are modelled by `ℝ`; a 3×3 rotation parameter block by a
`Matrix (Fin 3) (Fin 3) ℝ`; the row-major flattened index of such a block by
the pair type `Fin 3 × Fin 3`.  Fallible parameter-pointer reads are
modelled with `Option`.
-/

namespace PanoramaBA

abbrev Mat3 := Matrix (Fin 3) (Fin 3) ℝ

/-- Row-major flattened index of a 3×3 matrix: the pair (row, column). -/
abbrev Flat9 := Fin 3 × Fin 3

abbrev Vec2 := Fin 2 → ℝ

abbrev Vec3 := Fin 3 → ℝ

abbrev Vec4 := Fin 4 → ℝ

/-- `.homogeneous()` on a 3-vector: the 4-vector with a trailing 1. -/
def homogeneous (v : Vec3) : Vec4 := ![v 0, v 1, v 2, 1]

/- ----------------------------------------------------------------------
Intrinsics local parameterization (`IntrinsicsParameterization`,
BundleAdjustmentPanoramaCeres.cpp lines 26-175).
---------------------------------------------------------------------- -/

/-- Constructor arguments of `IntrinsicsParameterization` (lines 28-34): the
full parameter-vector size, the focal ratio and the four lock flags.  The
derived members `_distortionSize` and `_localSize` are deterministic
functions of these and are defined below. -/
structure IntrinsicsParameterization where
  globalSize : Nat
  focalRatio : ℝ
  lockFocal : Bool
  lockFocalRatio : Bool
  lockCenter : Bool
  lockDistortion : Bool

/-- `_distortionSize = _globalSize - 4` (line 36; `size_t` arithmetic — the
class is only instantiated on parameter vectors with at least 4 entries). -/
def IntrinsicsParameterization.distortionSize (P : IntrinsicsParameterization) : Nat :=
  P.globalSize - 4

/-- `_localSize` as accumulated by the constructor (lines 37-59): focal
contributes 1 (ratio locked) or 2 when unlocked, center contributes 2 when
unlocked, distortion contributes `_distortionSize` when unlocked. -/
def IntrinsicsParameterization.localSize (P : IntrinsicsParameterization) : Nat :=
  let l0 : Nat := 0
  let l1 := if !P.lockFocal then (if P.lockFocalRatio then l0 + 1 else l0 + 2) else l0
  let l2 := if !P.lockCenter then l1 + 2 else l1
  if !P.lockDistortion then l2 + P.distortionSize else l2

/-- `GlobalSize()` (lines 156-159). -/
def IntrinsicsParameterization.GlobalSize (P : IntrinsicsParameterization) : Nat :=
  P.globalSize

/-- `LocalSize()` (lines 161-164). -/
def IntrinsicsParameterization.LocalSize (P : IntrinsicsParameterization) : Nat :=
  P.localSize

/-- Number of `delta` entries the focal group consumes in `Plus` — the value
of `posDelta` after lines 73-88. -/
def IntrinsicsParameterization.focalDeltaSize (P : IntrinsicsParameterization) : Nat :=
  if P.lockFocal then 0 else if P.lockFocalRatio then 1 else 2

/-- Value of `posDelta` after the focal and center groups (lines 73-97). -/
def IntrinsicsParameterization.centerDeltaEnd (P : IntrinsicsParameterization) : Nat :=
  P.focalDeltaSize + if P.lockCenter then 0 else 2

/-- The distortion update loop of `Plus` (lines 99-106): for `i = 0 .. n-1`
write `x_plus_delta[4+i] = x[4+i] + delta[posDelta + i]`. -/
def distortionPlus (x : List ℝ) (delta : Nat → ℝ) (posDelta : Nat) : Nat → List ℝ → List ℝ
  | 0, out => out
  | n + 1, out =>
      (distortionPlus x delta posDelta n out).set (4 + n) (x.getD (4 + n) 0 + delta (posDelta + n))

/-- The focal block of `Plus` (lines 73-88) on the fresh copy of `x`
(lines 67-70): the updated vector and the value of `posDelta` afterwards.
When the ratio is locked both focal entries consume the single `delta[0]`,
the second scaled by the focal ratio. -/
def focalPlus (P : IntrinsicsParameterization) (x : List ℝ) (delta : Nat → ℝ) :
    List ℝ × Nat :=
  if !P.lockFocal then
    if P.lockFocalRatio then
      (((x.set 0 (x.getD 0 0 + delta 0)).set 1 (x.getD 1 0 + P.focalRatio * delta 0)), 1)
    else
      (((x.set 0 (x.getD 0 0 + delta 0)).set 1 (x.getD 1 0 + delta 1)), 2)
  else (x, 0)

/-- The principal-point block of `Plus` (lines 90-97) on the state `s`
(vector so far, `posDelta` so far). -/
def centerPlus (P : IntrinsicsParameterization) (x : List ℝ) (delta : Nat → ℝ)
    (s : List ℝ × Nat) : List ℝ × Nat :=
  if !P.lockCenter then
    (((s.1.set 2 (x.getD 2 0 + delta s.2)).set 3 (x.getD 3 0 + delta (s.2 + 1))), s.2 + 2)
  else s

/-- `IntrinsicsParameterization::Plus` (lines 65-109) on the full parameter
vector `x` (of length `_globalSize`); `delta` is read at the running index
`posDelta` exactly as the code advances it: the focal block, then the
principal-point block, then the distortion loop. -/
def IntrinsicsParameterization.Plus (P : IntrinsicsParameterization)
    (x : List ℝ) (delta : Nat → ℝ) : List ℝ :=
  let step1 := focalPlus P x delta
  let step2 := centerPlus P x delta step1
  if !P.lockDistortion then distortionPlus x delta step2.2 P.distortionSize step2.1
  else step2.1

/- ----------------------------------------------------------------------
Rotation manifold utilities (spec section 4.1).  `SO3::logm`, `SO3::dlogmdr`
and the `getJacobian_*` chain-rule helpers live in aliceVision's SO3 header,
which is not among the sources here; they are modelled from the spec.
---------------------------------------------------------------------- -/

/-- Modelled from the spec: the matrix chain-rule helper
`getJacobian_AB_wrt_A<3,3,3>(A, B)` — the 9×9 jacobian of the (row-major
flattened) product A·B with respect to A, i.e. right-multiplication by Bᵗ,
Kronecker-expanded: entry ((r,c),(k,l)) = [r = k] · B l c. -/
def getJacobian_AB_wrt_A (A B : Mat3) : Matrix Flat9 Flat9 ℝ :=
  fun rc kl => if rc.1 = kl.1 then B kl.2 rc.2 else 0

/-- Modelled from the spec: `getJacobian_AB_wrt_B<3,3,3>(A, B)` — the 9×9
jacobian of A·B with respect to B, i.e. left-multiplication by A:
entry ((r,c),(k,l)) = A r k · [c = l]. -/
def getJacobian_AB_wrt_B (A B : Mat3) : Matrix Flat9 Flat9 ℝ :=
  fun rc kl => if rc.2 = kl.2 then A rc.1 kl.1 else 0

/-- Modelled from the spec: `getJacobian_At_wrt_A<3,3>()` — the fixed 9×9
permutation taking the flattening of A to the flattening of Aᵗ. -/
def getJacobian_At_wrt_A : Matrix Flat9 Flat9 ℝ :=
  fun rc kl => if rc.1 = kl.2 ∧ rc.2 = kl.1 then 1 else 0

/-- The vee map used by the axis-angle formula: the 3-vector built from the
antisymmetric part of a matrix. -/
def so3vee (M : Mat3) : Vec3 := ![M 2 1, M 0 2, M 1 0]

open Classical in
/-- Modelled from the spec: `SO3::logm(R)` — the 3-vector axis-angle
representation of a rotation matrix, with the θ = 0 and θ = π edge cases
handled analytically as limits (spec sections 4.1 and 7): at the identity the
log is the zero vector; at trace ≤ -1 (angle π) the magnitude-π axis is
recovered from the diagonal; otherwise the standard formula
θ/(2 sin θ) · vee(R - Rᵗ) applies. -/
noncomputable def logm (R : Mat3) : Vec3 :=
  if R = 1 then 0
  else
    let c := (Matrix.trace R - 1) / 2
    let t := Real.arccos c
    if c ≤ -1 then fun i => t * Real.sqrt (max 0 ((R i i + 1) / 2))
    else fun i => (t / (2 * Real.sin t)) * so3vee R i

/- ----------------------------------------------------------------------
CostRotationPrior (lines 177-270).
---------------------------------------------------------------------- -/

/-- Declared parameter block sizes of `CostRotationPrior` (constructor,
lines 183-196): two 9-blocks for the absolute rotations, one more 9-block per
independent rig sub-pose (a shared sub-pose contributes a single block). -/
def rotationPriorBlockSizes (withRigOne withRigTwo withSameRig : Bool) : List Nat :=
  [9, 9] ++ (if withRigOne then [9] else []) ++
    (if withRigTwo && !withSameRig then [9] else [])

/-- Declared parameter block sizes of `CostEquiDistant` and `CostPinHole`
(lines 276-290 and 404-418): 9, 9, the intrinsic parameter count, then one
9-block per independent rig sub-pose. -/
def reprojectionBlockSizes (intrinsicSize : Nat)
    (withRigOne withRigTwo withSameRig : Bool) : List Nat :=
  [9, 9, intrinsicSize] ++ (if withRigOne then [9] else []) ++
    (if withRigTwo && !withSameRig then [9] else [])

/-- Output of `CostRotationPrior::Evaluate`: the 3-vector residual and the
3×9 jacobian written for each present parameter block (`none` for a rig slot
the configuration does not have). -/
structure RotationPriorOutput where
  residual : Vec3
  jacRotationOne : Matrix (Fin 3) Flat9 ℝ
  jacRotationTwo : Matrix (Fin 3) Flat9 ℝ
  jacRigOne : Option (Matrix (Fin 3) Flat9 ℝ)
  jacRigTwo : Option (Matrix (Fin 3) Flat9 ℝ)

/-- `CostRotationPrior::Evaluate` (lines 199-263) after its parameter
pointers have been resolved: `oneRo`, `twoRo` are blocks 0 and 1,
`coneRone` / `ctwoRtwo` the rig rotations (the identity when the view has no
rig, lines 201-205).  `dl` stands for `SO3::dlogmdr`, the 3×9 derivative of
`SO3::logm`; its closed form lives outside these sources and none of the
properties below depends on it, so it is passed as a parameter.  The
jacobian chains reproduce lines 230, 236, 244, 248 and 258 term for term; in
the shared-rig case the block-2 jacobian is the line-244 expression plus the
line-248 one. -/
noncomputable def rotationPriorEvaluateCore (dl : Mat3 → Matrix (Fin 3) Flat9 ℝ) (twoRone : Mat3)
    (withRigOne withRigTwo withSameRig : Bool)
    (oneRo twoRo coneRone ctwoRtwo : Mat3) : RotationPriorOutput :=
  let coneRo := coneRone * oneRo
  let ctwoRo := ctwoRtwo * twoRo
  let est := ctwoRo * coneRo.transpose
  let errorR := est * twoRone.transpose
  { residual := logm errorR,
    jacRotationOne := dl errorR * getJacobian_AB_wrt_A est twoRone.transpose *
      getJacobian_AB_wrt_B ctwoRo coneRo.transpose * getJacobian_At_wrt_A *
      getJacobian_AB_wrt_B coneRone oneRo * getJacobian_AB_wrt_A 1 oneRo,
    jacRotationTwo := dl errorR * getJacobian_AB_wrt_A est twoRone.transpose *
      getJacobian_AB_wrt_A ctwoRo coneRo.transpose * getJacobian_AB_wrt_B ctwoRtwo twoRo *
      getJacobian_AB_wrt_A 1 twoRo,
    jacRigOne :=
      if withRigOne then
        some (if withSameRig then
            dl errorR * getJacobian_AB_wrt_A est twoRone.transpose *
              getJacobian_AB_wrt_B ctwoRo coneRo.transpose * getJacobian_At_wrt_A *
              getJacobian_AB_wrt_A coneRone oneRo * getJacobian_AB_wrt_A 1 coneRone
            + dl errorR * getJacobian_AB_wrt_A est twoRone.transpose *
              getJacobian_AB_wrt_A ctwoRo coneRo.transpose *
              getJacobian_AB_wrt_A ctwoRtwo twoRo * getJacobian_AB_wrt_A 1 ctwoRtwo
          else
            dl errorR * getJacobian_AB_wrt_A est twoRone.transpose *
              getJacobian_AB_wrt_B ctwoRo coneRo.transpose * getJacobian_At_wrt_A *
              getJacobian_AB_wrt_A coneRone oneRo * getJacobian_AB_wrt_A 1 coneRone)
      else none,
    jacRigTwo :=
      if withRigTwo && !withSameRig then
        some (dl errorR * getJacobian_AB_wrt_A est twoRone.transpose *
          getJacobian_AB_wrt_A ctwoRo coneRo.transpose *
          getJacobian_AB_wrt_A ctwoRtwo twoRo * getJacobian_AB_wrt_A 1 ctwoRtwo)
      else none }

/-- The parameter pointer resolution of `CostRotationPrior::Evaluate`
(lines 201-205): blocks 0 and 1 are the absolute rotations; the rig rotation
of view one is block 2 when present; the rig rotation of view two is block 2
(aliased) under a shared rig and otherwise block 3 — read unconditionally,
even when view one contributed no block and only 3 blocks were declared.
`none` models an access past the declared parameter blocks. -/
def rotationPriorReadParams (withRigOne withRigTwo withSameRig : Bool)
    (params : List Mat3) : Option (Mat3 × Mat3 × Mat3 × Mat3) := do
  let oneRo ← params.get? 0
  let twoRo ← params.get? 1
  let coneRone ← if withRigOne then params.get? 2 else some 1
  let ctwoRtwo ←
    if withRigTwo then
      (if withSameRig then params.get? 2 else params.get? 3)
    else some 1
  return (oneRo, twoRo, coneRone, ctwoRtwo)

/-- `CostRotationPrior::Evaluate` (lines 199-263) on the parameter block
list that the solver passes — as many blocks as the constructor declared. -/
noncomputable def rotationPriorEvaluate (dl : Mat3 → Matrix (Fin 3) Flat9 ℝ) (twoRone : Mat3)
    (withRigOne withRigTwo withSameRig : Bool) (params : List Mat3) :
    Option RotationPriorOutput :=
  (rotationPriorReadParams withRigOne withRigTwo withSameRig params).map
    fun q =>
      rotationPriorEvaluateCore dl twoRone withRigOne withRigTwo withSameRig
        q.1 q.2.1 q.2.2.1 q.2.2.2

/- ----------------------------------------------------------------------
CostPinHole (lines 400-536) and CostEquiDistant (lines 272-398).
---------------------------------------------------------------------- -/

/-- Camera model adapter contract (spec section 4.2, external): the members
of the camera object the reprojection cost functions use, taking the
intrinsic parameter block explicitly (in the C++ the object is first mutated
with setScale / setOffset / setDistortionParams from that block).  Only the
members the verified claims depend on appear; the derivative members feeding
exclusively the intrinsic-block jacobian are not needed. -/
structure CameraFns where
  ima2cam : List ℝ → Vec2 → Vec2
  removeDistortion : List ℝ → Vec2 → Vec2
  toUnitSphere : List ℝ → Vec2 → Vec3
  project : List ℝ → Mat3 → Vec4 → Vec2
  dProjectWrtRotation : List ℝ → Mat3 → Vec4 → Matrix (Fin 2) Flat9 ℝ

/-- Output of a reprojection `Evaluate`: the 2-vector residual and the 2×9
jacobian written for each present rotation parameter block.  The
intrinsic-block jacobian (lines 346-358 / 483-495) is assembled purely from
the camera adapter's own derivative methods, does not depend on the rig
configuration, and is outside the verified claims, so it is not recorded. -/
structure ReprojectionOutput where
  residual : Vec2
  jacRotationI : Matrix (Fin 2) Flat9 ℝ
  jacRotationJ : Matrix (Fin 2) Flat9 ℝ
  jacRigI : Option (Matrix (Fin 2) Flat9 ℝ)
  jacRigJ : Option (Matrix (Fin 2) Flat9 ℝ)

/-- `CostPinHole::Evaluate` (lines 421-527) after parameter resolution:
`fi`, `fj` the two observations, `kv` the intrinsic parameter block, `ciRi` /
`cjRj` the rig rotations (identity when absent).  The jacobian chains
reproduce lines 474, 480, 502, 506 and 522 term for term; in the shared-rig
case the rig-i jacobian is the line-502 expression plus the line-506 one. -/
def pinholeEvaluateCore (cam : CameraFns) (fi fj : Vec2)
    (withRigOne withRigTwo withSameRig : Bool)
    (iRo jRo : Mat3) (kv : List ℝ) (ciRi cjRj : Mat3) : ReprojectionOutput :=
  let ciRo := ciRi * iRo
  let cjRo := cjRj * jRo
  let R := cjRo * ciRo.transpose
  let ptICam := cam.ima2cam kv fi
  let ptIUndist := cam.removeDistortion kv ptICam
  let ptISphere := homogeneous (cam.toUnitSphere kv ptIUndist)
  let ptJEst := cam.project kv R ptISphere
  { residual := fun k => ptJEst k - fj k,
    jacRotationI := cam.dProjectWrtRotation kv R ptISphere *
      getJacobian_AB_wrt_B cjRo ciRo.transpose * getJacobian_At_wrt_A *
      getJacobian_AB_wrt_B ciRi iRo * getJacobian_AB_wrt_A 1 iRo,
    jacRotationJ := cam.dProjectWrtRotation kv R ptISphere *
      getJacobian_AB_wrt_A cjRo ciRo.transpose * getJacobian_AB_wrt_B cjRj jRo *
      getJacobian_AB_wrt_A 1 jRo,
    jacRigI :=
      if withRigOne then
        some (if withSameRig then
            cam.dProjectWrtRotation kv R ptISphere *
              getJacobian_AB_wrt_B cjRo ciRo.transpose * getJacobian_At_wrt_A *
              getJacobian_AB_wrt_A ciRi iRo * getJacobian_AB_wrt_A 1 ciRi
            + cam.dProjectWrtRotation kv R ptISphere *
              getJacobian_AB_wrt_A cjRo ciRo.transpose * getJacobian_AB_wrt_A cjRj jRo *
              getJacobian_AB_wrt_A 1 cjRj
          else
            cam.dProjectWrtRotation kv R ptISphere *
              getJacobian_AB_wrt_B cjRo ciRo.transpose * getJacobian_At_wrt_A *
              getJacobian_AB_wrt_A ciRi iRo * getJacobian_AB_wrt_A 1 ciRi)
      else none,
    jacRigJ :=
      if withRigTwo && !withSameRig then
        some (cam.dProjectWrtRotation kv R ptISphere *
          getJacobian_AB_wrt_A cjRo ciRo.transpose * getJacobian_AB_wrt_A cjRj jRo *
          getJacobian_AB_wrt_A 1 cjRj)
      else none }

/-- `CostEquiDistant::Evaluate` (lines 293-388) after parameter resolution:
the same rotation chain as the pinhole variant (the two classes duplicate
it), with the equidistant camera's own adapter methods; the fixed-size
distortion extraction (lines 310-312) is inside the adapter functions. -/
def equidistantEvaluateCore (cam : CameraFns) (fi fj : Vec2)
    (withRigOne withRigTwo withSameRig : Bool)
    (iRo jRo : Mat3) (kv : List ℝ) (ciRi cjRj : Mat3) : ReprojectionOutput :=
  let ciRo := ciRi * iRo
  let cjRo := cjRj * jRo
  let R := cjRo * ciRo.transpose
  let ptICam := cam.ima2cam kv fi
  let ptIUndist := cam.removeDistortion kv ptICam
  let ptISphere := homogeneous (cam.toUnitSphere kv ptIUndist)
  let ptJEst := cam.project kv R ptISphere
  { residual := fun k => ptJEst k - fj k,
    jacRotationI := cam.dProjectWrtRotation kv R ptISphere *
      getJacobian_AB_wrt_B cjRo ciRo.transpose * getJacobian_At_wrt_A *
      getJacobian_AB_wrt_B ciRi iRo * getJacobian_AB_wrt_A 1 iRo,
    jacRotationJ := cam.dProjectWrtRotation kv R ptISphere *
      getJacobian_AB_wrt_A cjRo ciRo.transpose * getJacobian_AB_wrt_B cjRj jRo *
      getJacobian_AB_wrt_A 1 jRo,
    jacRigI :=
      if withRigOne then
        some (if withSameRig then
            cam.dProjectWrtRotation kv R ptISphere *
              getJacobian_AB_wrt_B cjRo ciRo.transpose * getJacobian_At_wrt_A *
              getJacobian_AB_wrt_A ciRi iRo * getJacobian_AB_wrt_A 1 ciRi
            + cam.dProjectWrtRotation kv R ptISphere *
              getJacobian_AB_wrt_A cjRo ciRo.transpose * getJacobian_AB_wrt_A cjRj jRo *
              getJacobian_AB_wrt_A 1 cjRj
          else
            cam.dProjectWrtRotation kv R ptISphere *
              getJacobian_AB_wrt_B cjRo ciRo.transpose * getJacobian_At_wrt_A *
              getJacobian_AB_wrt_A ciRi iRo * getJacobian_AB_wrt_A 1 ciRi)
      else none,
    jacRigJ :=
      if withRigTwo && !withSameRig then
        some (cam.dProjectWrtRotation kv R ptISphere *
          getJacobian_AB_wrt_A cjRo ciRo.transpose * getJacobian_AB_wrt_A cjRj jRo *
          getJacobian_AB_wrt_A 1 cjRj)
      else none }

/-- A parameter block as passed to the solver: a 9-double rotation block or
an intrinsic parameter vector.  (In the C++ these are raw `double*`; the tag
records the size/role of the block a pointer designates, and interpreting a
block with the wrong size — which the solver's size check would refuse — is
modelled as a failed read.) -/
inductive ParamBlock where
  | rot (m : Mat3)
  | intr (v : List ℝ)

/-- Read a parameter slot as a 9-double rotation block. -/
def blockAsRotation : Option ParamBlock → Option Mat3
  | some (ParamBlock.rot m) => some m
  | _ => none

/-- Read a parameter slot as an intrinsic parameter block. -/
def blockAsIntrinsics : Option ParamBlock → Option (List ℝ)
  | some (ParamBlock.intr v) => some v
  | _ => none

/-- Parameter resolution of `CostPinHole::Evaluate` and
`CostEquiDistant::Evaluate` (lines 427-431 / 299-303): the absolute
rotations at slots 0 and 1, the intrinsic block at slot 2, the rig of view i
at slot 3 when present, the rig of view j at slot 3 (aliased) under a shared
rig and otherwise at slot 4. -/
def reprojectionReadParams (withRigOne withRigTwo withSameRig : Bool)
    (params : List ParamBlock) : Option (Mat3 × Mat3 × List ℝ × Mat3 × Mat3) := do
  let iRo ← blockAsRotation (params.get? 0)
  let jRo ← blockAsRotation (params.get? 1)
  let kv ← blockAsIntrinsics (params.get? 2)
  let ciRi ← if withRigOne then blockAsRotation (params.get? 3) else some 1
  let cjRj ←
    if withRigTwo then
      (if withSameRig then blockAsRotation (params.get? 3)
       else blockAsRotation (params.get? 4))
    else some 1
  return (iRo, jRo, kv, ciRi, cjRj)

/- ----------------------------------------------------------------------
Problem assembly: parameter block lists and residual blocks
(`addConstraints2DToProblem`, lines 912-1014, and
`addRotationPriorsToProblem`, lines 1016-1078).
---------------------------------------------------------------------- -/

/-- The role of a parameter block in a two-view residual: the two absolute
pose blocks, the shared intrinsic block, and the two rig sub-pose blocks. -/
inductive BlockLabel where
  | poseA
  | poseB
  | intrinsic
  | rigA
  | rigB
  deriving DecidableEq

/-- The parameter block list `parameters_direct` built by
`addConstraints2DToProblem` (lines 969-988): the two pose blocks, then the
rig blocks, then the intrinsic block last. -/
def parametersDirect (withRig1 withRig2 withSameRig : Bool) : List BlockLabel :=
  [BlockLabel.poseA, BlockLabel.poseB] ++
    (if withRig1 then [BlockLabel.rigA] else []) ++
    (if withRig2 && !withSameRig then [BlockLabel.rigB] else []) ++
    [BlockLabel.intrinsic]

/-- The parameter block list `parameters_indirect` for the symmetric
residual (lines 970-988): poses swapped; under `withRig_1` the rig block of
view 2 is pushed, under `withRig_2 && !withSameRig` the rig block of view 1;
the intrinsic block last. -/
def parametersIndirect (withRig1 withRig2 withSameRig : Bool) : List BlockLabel :=
  [BlockLabel.poseB, BlockLabel.poseA] ++
    (if withRig1 then [BlockLabel.rigB] else []) ++
    (if withRig2 && !withSameRig then [BlockLabel.rigA] else []) ++
    [BlockLabel.intrinsic]

/-- The block layout the specification states for reprojection cost
functions, which is also the layout the cost functions themselves declare
(lines 404-418) and read (lines 427-431): the two pose blocks, the intrinsic
block third, then the rig blocks. -/
def specParameterLayout (withRig1 withRig2 withSameRig : Bool) : List BlockLabel :=
  [BlockLabel.poseA, BlockLabel.poseB, BlockLabel.intrinsic] ++
    (if withRig1 then [BlockLabel.rigA] else []) ++
    (if withRig2 && !withSameRig then [BlockLabel.rigB] else [])

/-- The parameter block list built by `addRotationPriorsToProblem`
(lines 1063-1074): the two pose blocks, then the rig blocks. -/
def rotationPriorParameters (withRig1 withRig2 withSameRig : Bool) : List BlockLabel :=
  [BlockLabel.poseA, BlockLabel.poseB] ++
    (if withRig1 then [BlockLabel.rigA] else []) ++
    (if withRig2 && !withSameRig then [BlockLabel.rigB] else [])

/-- Size in doubles of the block a label designates: 9 for every rotation
block, the intrinsic parameter count for the intrinsic block. -/
def labelSize (intrinsicSize : Nat) : BlockLabel → Nat
  | BlockLabel.intrinsic => intrinsicSize
  | _ => 9

/-- The concrete block a label designates in a scene where every rotation
block holds the identity and the intrinsic block holds `kv`. -/
def labelBlock (kv : List ℝ) : BlockLabel → ParamBlock
  | BlockLabel.intrinsic => ParamBlock.intr kv
  | _ => ParamBlock.rot 1

/-- A demonstration equidistant intrinsic parameter block:
[focalX, focalY, centerX, centerY, 3 distortion coefficients]. -/
def demoIntrinsics : List ℝ := [1, 1, 0, 0, 0, 0, 0]

/-- The concrete camera-model kind of the shared intrinsic of a 2D
constraint, as discovered by the dynamic casts of lines 965-967. -/
inductive CameraKind where
  | equidistant
  | pinhole
  | other
  deriving DecidableEq

/-- A robust loss function handed to the solver. -/
inductive LossFunctionKind where
  | huber (a : ℝ)

/-- aliceVision's `Square` helper as used at line 916 (modelled from the
spec: the loss is built on the squared scale parameter). -/
def Square (x : ℝ) : ℝ := x * x

/-- A residual block as registered with the solver: its ordered parameter
block list and its (optional) robust loss. -/
structure ResidualBlockRec where
  parameterBlocks : List BlockLabel
  loss : Option LossFunctionKind

/-- The data of one 2D constraint that decides which residual blocks
`addConstraints2DToProblem` adds: the camera-model kind of the shared
intrinsic and the rig flags computed at lines 939-963 (`withSameRig` is the
pointer-identity test of line 959). -/
structure Constraint2DRec where
  camKind : CameraKind
  withRig1 : Bool
  withRig2 : Bool
  withSameRig : Bool

/-- The residual blocks `addConstraints2DToProblem` (lines 912-1014) adds:
per constraint one direct block (lines 993-994 / 1002-1003) and one
symmetric block (lines 997-998 / 1005-1006), both with the Huber loss of
line 916 built on `Square(8.0)`; a constraint whose camera is neither
equidistant nor pinhole logs an error and returns, aborting the whole loop
(lines 1008-1012), so no block is added for it or any later constraint. -/
def addConstraints2DBlocks : List Constraint2DRec → List ResidualBlockRec
  | [] => []
  | c :: rest =>
    match c.camKind with
    | CameraKind.other => []
    | _ =>
      { parameterBlocks := parametersDirect c.withRig1 c.withRig2 c.withSameRig,
        loss := some (LossFunctionKind.huber (Square 8)) } ::
      { parameterBlocks := parametersIndirect c.withRig1 c.withRig2 c.withSameRig,
        loss := some (LossFunctionKind.huber (Square 8)) } ::
      addConstraints2DBlocks rest

/-- The data of one rotation prior that decides its residual block: the rig
flags computed at lines 1034-1059. -/
structure RotationPriorRec where
  withRig1 : Bool
  withRig2 : Bool
  withSameRig : Bool

/-- The residual blocks `addRotationPriorsToProblem` (lines 1016-1078) adds:
exactly one per prior, on the block list of lines 1063-1074, with a null
loss function (line 1020). -/
def addRotationPriorBlocks (priors : List RotationPriorRec) : List ResidualBlockRec :=
  priors.map fun p =>
    { parameterBlocks := rotationPriorParameters p.withRig1 p.withRig2 p.withSameRig,
      loss := none }

/- ----------------------------------------------------------------------
addIntrinsicsToProblem (lines 777-909).
---------------------------------------------------------------------- -/

/-- The tri-state of a pose or intrinsic parameter (spec section 3). -/
inductive EParameterState where
  | refined
  | constant
  | ignored
  deriving DecidableEq

/-- The two facts about a view that the usage-counting loop reads: its
intrinsic id and whether `sfmData.isPoseAndIntrinsicDefined(&view)` holds
(the view is reconstructed). -/
structure ViewRec where
  intrinsicId : Nat
  reconstructed : Bool

/-- One iteration of the usage-counting loop (lines 788-797): ensure an
entry for the view's intrinsic exists (0 when new), then increment it when
the view is reconstructed. -/
def usageStep (m : Nat → Option Nat) (v : ViewRec) : Nat → Option Nat :=
  fun i =>
    if i = v.intrinsicId then
      some ((m v.intrinsicId).getD 0 + (if v.reconstructed then 1 else 0))
    else m i

/-- The `intrinsicsUsage` map after the loop of lines 788-797: `none` when
no view references the intrinsic, otherwise the number of reconstructed
views using it. -/
def intrinsicsUsage (views : List ViewRec) : Nat → Option Nat :=
  views.foldl usageStep fun _ => none

/-- The two facts about an intrinsic that decide its registration: its
parameter vector (`getParams()`) and its lock flag (`isLocked()`). -/
structure IntrinsicRec where
  params : List ℝ
  locked : Bool

/-- The refine-option flags consumed by this bundle adjuster. -/
structure RefineOptions where
  refineRotation : Bool
  refineTranslation : Bool
  refineFocal : Bool
  refineDistortion : Bool
  refineCenterAlways : Bool
  refineCenterIfEnoughData : Bool

/-- `refineIntrinsics` as computed at lines 779-782. -/
def refineIntrinsicsFlag (o : RefineOptions) : Bool :=
  o.refineDistortion || o.refineFocal || (o.refineCenterAlways || o.refineCenterIfEnoughData)

/-- What `addIntrinsicsToProblem` produces: the registered parameter blocks
(intrinsic id with its parameter vector, in scene order) and the statistics
counters for (INTRINSIC, REFINED / CONSTANT / IGNORED). -/
structure IntrinsicsResult where
  blocks : List (Nat × List ℝ)
  refinedCount : Nat
  constantCount : Nat
  ignoredCount : Nat

/-- The per-intrinsic loop of `addIntrinsicsToProblem` (lines 799-908): an
intrinsic with no usage entry — one referenced by no view at all — is
skipped silently (lines 803-806, no statistics entry); one used by zero
reconstructed views or in the IGNORED state is skipped and counted ignored
(lines 810-814); otherwise its parameter block is registered (lines 818-822)
and it is counted constant (locked, refinement disabled or CONSTANT state,
lines 825-831) or refined (line 907).  The focal/center bounds and the
subset parameterization attached in the refined branch (lines 833-905)
configure the solver but change neither which blocks are registered nor the
statistics, and are not recorded here. -/
def addIntrinsicsLoop (usage : Nat → Option Nat) (state : Nat → EParameterState)
    (refineIntrinsics : Bool) : List (Nat × IntrinsicRec) → IntrinsicsResult
  | [] => { blocks := [], refinedCount := 0, constantCount := 0, ignoredCount := 0 }
  | (id, it) :: rest =>
    let res := addIntrinsicsLoop usage state refineIntrinsics rest
    match usage id with
    | none => res
    | some usageCount =>
      if usageCount = 0 ∨ state id = EParameterState.ignored then
        { res with ignoredCount := res.ignoredCount + 1 }
      else if it.locked ∨ refineIntrinsics = false ∨ state id = EParameterState.constant then
        { res with
          blocks := (id, it.params) :: res.blocks
          constantCount := res.constantCount + 1 }
      else
        { res with
          blocks := (id, it.params) :: res.blocks
          refinedCount := res.refinedCount + 1 }

/-- `addIntrinsicsToProblem` (lines 777-909) over the scene's views and
intrinsics, with the caller's parameter-state query. -/
def addIntrinsicsToProblem (views : List ViewRec) (intrinsics : List (Nat × IntrinsicRec))
    (state : Nat → EParameterState) (opts : RefineOptions) : IntrinsicsResult :=
  addIntrinsicsLoop (intrinsicsUsage views) state (refineIntrinsicsFlag opts) intrinsics

/-- All refine options enabled. -/
def allRefineOptions : RefineOptions :=
  { refineRotation := true, refineTranslation := true, refineFocal := true,
    refineDistortion := true, refineCenterAlways := true, refineCenterIfEnoughData := true }

/- ----------------------------------------------------------------------
Statistics export (`Statistics::exportToFile`, lines 583-641).
---------------------------------------------------------------------- -/

/-- The fields one data line of the statistics report serializes
(lines 615-637). -/
structure PanoramaStatistics where
  time : ℝ
  posesRefined : Nat
  posesConstant : Nat
  posesIgnored : Nat
  intrinsicsRefined : Nat
  intrinsicsConstant : Nat
  intrinsicsIgnored : Nat
  nbResidualBlocks : Nat
  nbSuccessfullIterations : Nat
  nbUnsuccessfullIterations : Nat
  RMSEinitial : ℝ
  RMSEfinal : ℝ
  nbCamerasPerDistance : List (Int × Nat)

/-- A line of the statistics file: the fixed header (lines 599-605) or one
semicolon-delimited data line carrying a statistics record.  The file is
modelled at line granularity (the numeric text formatting is not at
stake). -/
inductive StatLine where
  | header
  | data (s : PanoramaStatistics)

/-- `Statistics::exportToFile` (lines 583-641) on an already-opened file:
the stream is opened in append mode and the cursor seeked to the end
(lines 586, 594); the fixed header line is written exactly when the cursor
is then at position 0, i.e. the file is empty (lines 596-606); one data line
is appended (lines 608-637). -/
def exportToFile (file : List StatLine) (s : PanoramaStatistics) : List StatLine :=
  let withHeader := if file.isEmpty then file ++ [StatLine.header] else file
  withHeader ++ [StatLine.data s]

/-- A demonstration statistics record (all numeric fields zero). -/
def demoStatistics : PanoramaStatistics :=
  { time := 0, posesRefined := 0, posesConstant := 0, posesIgnored := 0,
    intrinsicsRefined := 0, intrinsicsConstant := 0, intrinsicsIgnored := 0,
    nbResidualBlocks := 0, nbSuccessfullIterations := 0, nbUnsuccessfullIterations := 0,
    RMSEinitial := 0, RMSEfinal := 0, nbCamerasPerDistance := [] }

/- ----------------------------------------------------------------------
updateFromSolution (lines 1098-1140) and adjust (lines 1142-1181).
---------------------------------------------------------------------- -/

/-- A camera pose transform: rotation and translation. -/
structure Pose3 where
  rotation : Mat3
  translation : Vec3

/-- `poseFromRT` as used at line 1121. -/
def poseFromRT (R : Mat3) (t : Vec3) : Pose3 :=
  { rotation := R, translation := t }

/-- The mutable part of the scene this bundle adjuster writes back to:
the pose transform per pose id and the camera-model parameters per
intrinsic id (both total maps over ids, standing for the scene accessor
contract of spec section 6). -/
structure SfMScene where
  poses : Nat → Pose3
  intrinsicParams : Nat → List ℝ

/-- `updateFromSolution` (lines 1098-1140).  The pose loop walks the
scene's poses, skips any pose whose state is not REFINED (lines 1113-1116)
and overwrites the transform from the solved block with a zero translation
(line 1121); the solved pose blocks are a total map (assembly registered a
block for every non-ignored pose, hence for every refined one).  The
intrinsic loop walks the solved intrinsic blocks — `none` for an id without
a block — skips any state that is not REFINED (lines 1132-1135) and feeds
the block through `updateFromParams` (line 1137), modelled as replacing the
stored parameter vector.  Either loop runs only when its refine flag is
requested (lines 1100-1102, 1106, 1126). -/
def updateFromSolution (scene : SfMScene) (opts : RefineOptions)
    (posesBlocks : Nat → Mat3) (intrinsicsBlocks : Nat → Option (List ℝ))
    (poseState intrinsicState : Nat → EParameterState) : SfMScene :=
  let refinePoses := opts.refineRotation || opts.refineTranslation
  let refineIntrinsics := opts.refineFocal || opts.refineDistortion ||
    (opts.refineCenterAlways || opts.refineCenterIfEnoughData)
  { poses := fun id =>
      if refinePoses = true ∧ poseState id = EParameterState.refined then
        poseFromRT (posesBlocks id) (fun _ => 0)
      else scene.poses id,
    intrinsicParams := fun id =>
      if refineIntrinsics = true ∧ intrinsicState id = EParameterState.refined then
        match intrinsicsBlocks id with
        | some v => v
        | none => scene.intrinsicParams id
      else scene.intrinsicParams id }

/-- The solver summary fields `adjust` consumes (lines 1154-1178). -/
structure SolverSummary where
  isSolutionUsable : Bool
  totalTimeInSeconds : ℝ
  numSuccessfulSteps : Nat
  numUnsuccessfulSteps : Nat
  numResiduals : Nat
  initialCost : ℝ
  finalCost : ℝ

/-- `adjust` (lines 1142-1181): the problem is assembled from the scene
(taken by const reference — assembly does not modify it), the external
solver runs, and when the summary flags the solution not usable the call
returns false with the scene untouched (lines 1162-1167); otherwise
`updateFromSolution` writes the solution back and the call returns true.
The solver is the external black box of spec section 6: its outcome — the
summary and the solved block values — is an input here.  The statistics
stores of lines 1172-1178 happen only on the success path and do not touch
the scene. -/
def adjust (scene : SfMScene) (opts : RefineOptions)
    (posesBlocks : Nat → Mat3) (intrinsicsBlocks : Nat → Option (List ℝ))
    (poseState intrinsicState : Nat → EParameterState)
    (summary : SolverSummary) : Bool × SfMScene :=
  if summary.isSolutionUsable = false then (false, scene)
  else
    (true, updateFromSolution scene opts posesBlocks intrinsicsBlocks poseState intrinsicState)

/-- A demonstration scene with identity poses and empty intrinsics. -/
def demoScene : SfMScene :=
  { poses := fun _ => { rotation := 1, translation := fun _ => 0 },
    intrinsicParams := fun _ => [] }

/-- A solver summary flagging the solution not usable. -/
def failedSummary : SolverSummary :=
  { isSolutionUsable := false, totalTimeInSeconds := 0, numSuccessfulSteps := 0,
    numUnsuccessfulSteps := 0, numResiduals := 0, initialCost := 0, finalCost := 0 }

/-- A demonstration parameterization: 5 parameters, focal ratio 2, focal
unlocked with the ratio locked, center locked, distortion unlocked. -/
def demoParamization : IntrinsicsParameterization :=
  { globalSize := 5, focalRatio := 2, lockFocal := false, lockFocalRatio := true,
    lockCenter := true, lockDistortion := false }

/-- A demonstration full parameter vector of length 5. -/
def demoX : List ℝ := [1, 2, 3, 4, 5]

/-- A demonstration local perturbation vector (read by index). -/
def demoDelta : Nat → ℝ := fun n => n + 1

/- ----------------------------------------------------------------------
Helper lemmas.
---------------------------------------------------------------------- -/

/-- `logm` at the identity is the zero vector (the θ = 0 limit). -/
theorem logm_one : logm 1 = 0 := by
  simp [logm]

/-- `List.set` then `getD` at the written (in-range) index. -/
theorem getD_set_self (l : List ℝ) (i : Nat) (v : ℝ) (h : i < l.length) :
    (l.set i v).getD i 0 = v := by
  simp [List.getD_eq_getElem?_getD, List.getElem?_set_self, h]

/-- `List.set` then `getD` at another index. -/
theorem getD_set_other (l : List ℝ) (i j : Nat) (v : ℝ) (h : i ≠ j) :
    (l.set i v).getD j 0 = l.getD j 0 := by
  simp [List.getD_eq_getElem?_getD, List.getElem?_set_ne h]

/-- The distortion loop preserves the vector length. -/
theorem distortionPlus_length (x : List ℝ) (delta : Nat → ℝ) (p : Nat) :
    ∀ (n : Nat) (out : List ℝ), (distortionPlus x delta p n out).length = out.length := by
  intro n
  induction n with
  | zero => intro out; rfl
  | succ m ih => intro out; simp [distortionPlus, ih]

/-- The distortion loop leaves the first four entries alone. -/
theorem distortionPlus_getD_head (x : List ℝ) (delta : Nat → ℝ) (p : Nat) :
    ∀ (n : Nat) (out : List ℝ) (j : Nat), j < 4 →
      (distortionPlus x delta p n out).getD j 0 = out.getD j 0 := by
  intro n
  induction n with
  | zero => intro out j _; rfl
  | succ m ih =>
    intro out j hj
    simp only [distortionPlus]
    rw [getD_set_other _ _ _ _ (by omega)]
    exact ih out j hj

/-- The distortion loop writes `x[4+i] + delta[p+i]` at entry `4+i`. -/
theorem distortionPlus_getD_hit (x : List ℝ) (delta : Nat → ℝ) (p : Nat) :
    ∀ (n : Nat) (out : List ℝ) (i : Nat), i < n → 4 + n ≤ out.length →
      (distortionPlus x delta p n out).getD (4 + i) 0 = x.getD (4 + i) 0 + delta (p + i) := by
  intro n
  induction n with
  | zero => intro out i h _; exact absurd h (by omega)
  | succ m ih =>
    intro out i hi hlen
    simp only [distortionPlus]
    by_cases he : i = m
    · subst he
      rw [getD_set_self]
      rw [distortionPlus_length]
      omega
    · rw [getD_set_other _ _ _ _ (by omega)]
      exact ih out i (by omega) (by omega)

/-- Emptiness of a sequence of residual blocks: every block the constraint
loop produces carries the Huber loss of line 916. -/
theorem addConstraints2DBlocks_loss (cs : List Constraint2DRec) :
    ∀ b ∈ addConstraints2DBlocks cs, b.loss = some (LossFunctionKind.huber (Square 8)) := by
  induction cs with
  | nil => intro b hb; simp [addConstraints2DBlocks] at hb
  | cons c rest ih =>
    intro b hb
    cases hck : c.camKind <;>
      simp only [addConstraints2DBlocks, hck, List.mem_cons, List.not_mem_nil] at hb
    · rcases hb with rfl | rfl | hb
      · rfl
      · rfl
      · exact ih b hb
    · rcases hb with rfl | rfl | hb
      · rfl
      · rfl
      · exact ih b hb

/-- Block count of the constraint loop when no constraint aborts it. -/
theorem addConstraints2DBlocks_length (cs : List Constraint2DRec) :
    (∀ c ∈ cs, c.camKind ≠ CameraKind.other) →
      (addConstraints2DBlocks cs).length = 2 * cs.length := by
  induction cs with
  | nil => intro _; rfl
  | cons c rest ih =>
    intro hc
    have hcc := hc c (List.mem_cons_self c rest)
    have hrest : ∀ x ∈ rest, x.camKind ≠ CameraKind.other :=
      fun x hx => hc x (List.mem_cons_of_mem c hx)
    cases hck : c.camKind
    · simp only [addConstraints2DBlocks, hck, List.length_cons, ih hrest, List.length]
      omega
    · simp only [addConstraints2DBlocks, hck, List.length_cons, ih hrest, List.length]
      omega
    · exact absurd hck hcc

/-- Appending further export calls to a non-empty statistics file adds one
data line per call and never another header. -/
theorem exportToFile_foldl_of_ne_nil (l : List PanoramaStatistics) :
    ∀ file : List StatLine, file ≠ [] →
      l.foldl exportToFile file = file ++ l.map StatLine.data := by
  induction l with
  | nil => intro file _; simp
  | cons s rest ih =>
    intro file hfile
    have hne : file.isEmpty = false := by
      cases file
      · exact absurd rfl hfile
      · rfl
    have h1 : exportToFile file s = file ++ [StatLine.data s] := by
      simp [exportToFile, hne]
    rw [List.foldl_cons, h1, ih (file ++ [StatLine.data s]) (by simp)]
    simp

/-- The focal block preserves the vector length. -/
theorem focalPlus_length (P : IntrinsicsParameterization) (x : List ℝ) (delta : Nat → ℝ) :
    (focalPlus P x delta).1.length = x.length := by
  cases hf : P.lockFocal <;> cases hr : P.lockFocalRatio <;> simp [focalPlus, hf, hr]

/-- The focal block consumes `focalDeltaSize` delta entries. -/
theorem focalPlus_snd (P : IntrinsicsParameterization) (x : List ℝ) (delta : Nat → ℝ) :
    (focalPlus P x delta).2 = P.focalDeltaSize := by
  cases hf : P.lockFocal <;> cases hr : P.lockFocalRatio <;>
    simp [focalPlus, IntrinsicsParameterization.focalDeltaSize, hf, hr]

/-- A locked focal block copies the vector unchanged. -/
theorem focalPlus_fst_locked (P : IntrinsicsParameterization) (x : List ℝ) (delta : Nat → ℝ)
    (h : P.lockFocal = true) : (focalPlus P x delta).1 = x := by
  simp [focalPlus, h]

/-- An unlocked focal block adds `delta 0` to entry 0. -/
theorem focalPlus_getD_zero_unlocked (P : IntrinsicsParameterization) (x : List ℝ)
    (delta : Nat → ℝ) (h : P.lockFocal = false) (h0 : 0 < x.length) :
    (focalPlus P x delta).1.getD 0 0 = x.getD 0 0 + delta 0 := by
  cases hr : P.lockFocalRatio
  · simp only [focalPlus, h, hr, Bool.not_false, if_true]
    rw [if_neg Bool.false_ne_true, getD_set_other _ _ _ _ (by omega),
      getD_set_self _ _ _ h0]
  · simp only [focalPlus, h, hr, Bool.not_false, if_true]
    rw [getD_set_other _ _ _ _ (by omega), getD_set_self _ _ _ h0]

/-- With the ratio locked, entry 1 receives `focalRatio * delta 0`. -/
theorem focalPlus_getD_one_ratio (P : IntrinsicsParameterization) (x : List ℝ)
    (delta : Nat → ℝ) (h : P.lockFocal = false) (hr : P.lockFocalRatio = true)
    (h1 : 1 < x.length) :
    (focalPlus P x delta).1.getD 1 0 = x.getD 1 0 + P.focalRatio * delta 0 := by
  simp only [focalPlus, h, hr, Bool.not_false, if_true]
  rw [getD_set_self]
  simp [h1]

/-- With the ratio free, entry 1 receives its own `delta 1`. -/
theorem focalPlus_getD_one_free (P : IntrinsicsParameterization) (x : List ℝ)
    (delta : Nat → ℝ) (h : P.lockFocal = false) (hr : P.lockFocalRatio = false)
    (h1 : 1 < x.length) :
    (focalPlus P x delta).1.getD 1 0 = x.getD 1 0 + delta 1 := by
  simp only [focalPlus, h, hr, Bool.not_false, if_true]
  rw [if_neg Bool.false_ne_true, getD_set_self]
  simp [h1]

/-- The focal block does not touch entries past 1. -/
theorem focalPlus_getD_ge (P : IntrinsicsParameterization) (x : List ℝ) (delta : Nat → ℝ)
    (j : Nat) (hj : 2 ≤ j) : (focalPlus P x delta).1.getD j 0 = x.getD j 0 := by
  cases hf : P.lockFocal
  · cases hr : P.lockFocalRatio
    · simp only [focalPlus, hf, hr, Bool.not_false, if_true]
      rw [if_neg Bool.false_ne_true, getD_set_other _ _ _ _ (by omega),
        getD_set_other _ _ _ _ (by omega)]
    · simp only [focalPlus, hf, hr, Bool.not_false, if_true]
      rw [getD_set_other _ _ _ _ (by omega), getD_set_other _ _ _ _ (by omega)]
  · simp [focalPlus, hf]

/-- The center block preserves the vector length. -/
theorem centerPlus_length (P : IntrinsicsParameterization) (x : List ℝ) (delta : Nat → ℝ)
    (s : List ℝ × Nat) : (centerPlus P x delta s).1.length = s.1.length := by
  cases hc : P.lockCenter <;> simp [centerPlus, hc]

/-- A locked center block passes the vector through. -/
theorem centerPlus_fst_locked (P : IntrinsicsParameterization) (x : List ℝ) (delta : Nat → ℝ)
    (s : List ℝ × Nat) (h : P.lockCenter = true) : (centerPlus P x delta s).1 = s.1 := by
  simp [centerPlus, h]

/-- An unlocked center block adds the next delta entry at position 2. -/
theorem centerPlus_getD_two_unlocked (P : IntrinsicsParameterization) (x : List ℝ)
    (delta : Nat → ℝ) (s : List ℝ × Nat) (h : P.lockCenter = false) (h2 : 2 < s.1.length) :
    (centerPlus P x delta s).1.getD 2 0 = x.getD 2 0 + delta s.2 := by
  simp only [centerPlus, h, Bool.not_false, if_true]
  rw [getD_set_other _ _ _ _ (by omega), getD_set_self _ _ _ h2]

/-- An unlocked center block adds the delta entry after that at position 3. -/
theorem centerPlus_getD_three_unlocked (P : IntrinsicsParameterization) (x : List ℝ)
    (delta : Nat → ℝ) (s : List ℝ × Nat) (h : P.lockCenter = false) (h3 : 3 < s.1.length) :
    (centerPlus P x delta s).1.getD 3 0 = x.getD 3 0 + delta (s.2 + 1) := by
  simp only [centerPlus, h, Bool.not_false, if_true]
  rw [getD_set_self]
  simp [h3]

/-- The center block does not touch entries other than 2 and 3. -/
theorem centerPlus_getD_out (P : IntrinsicsParameterization) (x : List ℝ) (delta : Nat → ℝ)
    (s : List ℝ × Nat) (j : Nat) (hj2 : j ≠ 2) (hj3 : j ≠ 3) :
    (centerPlus P x delta s).1.getD j 0 = s.1.getD j 0 := by
  cases hc : P.lockCenter
  · simp only [centerPlus, hc, Bool.not_false, if_true]
    rw [getD_set_other _ _ _ _ (by omega), getD_set_other _ _ _ _ (by omega)]
  · simp [centerPlus, hc]

/-- After the focal and center blocks, `posDelta` is `centerDeltaEnd`. -/
theorem centerPlus_focal_snd (P : IntrinsicsParameterization) (x : List ℝ) (delta : Nat → ℝ) :
    (centerPlus P x delta (focalPlus P x delta)).2 = P.centerDeltaEnd := by
  cases hc : P.lockCenter <;>
    simp [centerPlus, hc, focalPlus_snd, IntrinsicsParameterization.centerDeltaEnd]

/-- After the focal and center blocks, the vector length is unchanged. -/
theorem centerPlus_focal_length (P : IntrinsicsParameterization) (x : List ℝ)
    (delta : Nat → ℝ) :
    (centerPlus P x delta (focalPlus P x delta)).1.length = x.length := by
  rw [centerPlus_length, focalPlus_length]

/-- Entries 0-3 of `Plus` are those after the focal and center blocks (the
distortion loop only writes from entry 4 on). -/
theorem Plus_getD_head (P : IntrinsicsParameterization) (x : List ℝ) (delta : Nat → ℝ)
    (j : Nat) (hj : j < 4) :
    (P.Plus x delta).getD j 0 =
      (centerPlus P x delta (focalPlus P x delta)).1.getD j 0 := by
  cases hld : P.lockDistortion
  · simp only [IntrinsicsParameterization.Plus, hld, Bool.not_false, if_true]
    exact distortionPlus_getD_head x delta _ _ _ j hj
  · simp only [IntrinsicsParameterization.Plus, hld, Bool.not_true]
    rw [if_neg Bool.false_ne_true]

/-- `intrinsicsUsage` over any initial map: `none` exactly when the map had
no entry and no view references the id. -/
theorem foldl_usageStep_none (views : List ViewRec) :
    ∀ (m : Nat → Option Nat) (i : Nat),
      views.foldl usageStep m i = none ↔ (m i = none ∧ ∀ v ∈ views, v.intrinsicId ≠ i) := by
  induction views with
  | nil => intro m i; simp
  | cons v vs ih =>
    intro m i
    rw [List.foldl_cons, ih]
    constructor
    · rintro ⟨h1, h2⟩
      by_cases he : i = v.intrinsicId
      · exfalso
        rw [usageStep] at h1
        simp [he] at h1
      · refine ⟨?_, ?_⟩
        · rw [usageStep] at h1
          simpa [he] using h1
        · intro w hw
          rcases List.mem_cons.mp hw with rfl | hw
          · exact fun hh => he hh.symm
          · exact h2 w hw
    · rintro ⟨h1, h2⟩
      have hne : i ≠ v.intrinsicId :=
        fun hh => (h2 v (List.mem_cons_self v vs)) hh.symm
      refine ⟨?_, fun w hw => h2 w (List.mem_cons_of_mem v hw)⟩
      rw [usageStep]
      simp [hne, h1]

/-- `intrinsicsUsage` over any initial map: a present entry counts the
reconstructed views referencing the id on top of the initial value. -/
theorem foldl_usageStep_some (views : List ViewRec) :
    ∀ (m : Nat → Option Nat) (i c : Nat),
      views.foldl usageStep m i = some c →
      c = (m i).getD 0 + views.countP (fun v => v.intrinsicId == i && v.reconstructed) := by
  induction views with
  | nil =>
    intro m i c h
    simp only [List.foldl_nil] at h
    simp [h]
  | cons v vs ih =>
    intro m i c h
    rw [List.foldl_cons] at h
    rw [ih (usageStep m v) i c h, List.countP_cons]
    by_cases he : i = v.intrinsicId
    · subst he
      simp only [usageStep, if_pos rfl, Option.getD_some, beq_self_eq_true, Bool.true_and]
      cases hrec : v.reconstructed <;> simp <;> omega
    · have hb : (v.intrinsicId == i) = false := by
        simp [Ne.symm he]
      simp only [usageStep, if_neg he, hb, Bool.false_and]
      rw [if_neg Bool.false_ne_true]
      omega

/-- An intrinsic is absent from the usage map exactly when no view at all
references it (lines 788-797 start from an empty map). -/
theorem intrinsicsUsage_eq_none_iff (views : List ViewRec) (i : Nat) :
    intrinsicsUsage views i = none ↔ ∀ v ∈ views, v.intrinsicId ≠ i := by
  rw [intrinsicsUsage, foldl_usageStep_none]
  simp

/-- A present usage entry is the number of reconstructed views using the
intrinsic. -/
theorem intrinsicsUsage_count (views : List ViewRec) (i c : Nat)
    (h : intrinsicsUsage views i = some c) :
    c = views.countP (fun v => v.intrinsicId == i && v.reconstructed) := by
  have := foldl_usageStep_some views (fun _ => none) i c h
  simpa using this

/-- No block is ever registered for an intrinsic whose usage entry is
missing, zero, or whose state is IGNORED. -/
theorem addIntrinsicsLoop_skip (usage : Nat → Option Nat) (state : Nat → EParameterState)
    (ri : Bool) :
    ∀ (intrinsics : List (Nat × IntrinsicRec)) (id : Nat),
      (usage id = none ∨
        ∃ c, usage id = some c ∧ (c = 0 ∨ state id = EParameterState.ignored)) →
      ∀ q ∈ (addIntrinsicsLoop usage state ri intrinsics).blocks, q.1 ≠ id := by
  intro intrinsics
  induction intrinsics with
  | nil => intro id _ q hq; simp [addIntrinsicsLoop] at hq
  | cons p rest ih =>
    intro id hskip q hq
    obtain ⟨pid, pit⟩ := p
    cases hu : usage pid with
    | none =>
      simp only [addIntrinsicsLoop, hu] at hq
      exact ih id hskip q hq
    | some c =>
      by_cases hsk : c = 0 ∨ state pid = EParameterState.ignored
      · simp only [addIntrinsicsLoop, hu, if_pos hsk] at hq
        exact ih id hskip q hq
      · by_cases hconst : pit.locked ∨ ri = false ∨ state pid = EParameterState.constant
        · simp only [addIntrinsicsLoop, hu, if_neg hsk, if_pos hconst] at hq
          rcases List.mem_cons.mp hq with rfl | hq
          · intro hqid
            have hpid : pid = id := hqid
            subst hpid
            rcases hskip with hnone | ⟨c', hc', hor⟩
            · rw [hu] at hnone
              exact Option.noConfusion hnone
            · rw [hu] at hc'
              obtain rfl : c' = c := (Option.some.inj hc').symm
              exact hsk hor
          · exact ih id hskip q hq
        · simp only [addIntrinsicsLoop, hu, if_neg hsk, if_neg hconst] at hq
          rcases List.mem_cons.mp hq with rfl | hq
          · intro hqid
            have hpid : pid = id := hqid
            subst hpid
            rcases hskip with hnone | ⟨c', hc', hor⟩
            · rw [hu] at hnone
              exact Option.noConfusion hnone
            · rw [hu] at hc'
              obtain rfl : c' = c := (Option.some.inj hc').symm
              exact hsk hor
          · exact ih id hskip q hq

/-- The IGNORED statistics counter counts exactly the intrinsics with a
present usage entry that is zero or whose state is IGNORED — an intrinsic
with no usage entry contributes nothing. -/
theorem addIntrinsicsLoop_ignoredCount (usage : Nat → Option Nat)
    (state : Nat → EParameterState) (ri : Bool) :
    ∀ intrinsics : List (Nat × IntrinsicRec),
      (addIntrinsicsLoop usage state ri intrinsics).ignoredCount =
        intrinsics.countP (fun p =>
          match usage p.1 with
          | some c => decide (c = 0 ∨ state p.1 = EParameterState.ignored)
          | none => false) := by
  intro intrinsics
  induction intrinsics with
  | nil => rfl
  | cons p rest ih =>
    obtain ⟨pid, pit⟩ := p
    rw [List.countP_cons]
    cases hu : usage pid with
    | none =>
      simp only [addIntrinsicsLoop, hu]
      simp [ih, hu]
    | some c =>
      by_cases hsk : c = 0 ∨ state pid = EParameterState.ignored
      · simp only [addIntrinsicsLoop, hu, if_pos hsk]
        simp [ih, hu, hsk]
      · by_cases hconst : pit.locked ∨ ri = false ∨ state pid = EParameterState.constant
        · simp only [addIntrinsicsLoop, hu, if_neg hsk, if_pos hconst]
          simp [ih, hu, hsk]
        · simp only [addIntrinsicsLoop, hu, if_neg hsk, if_neg hconst]
          simp [ih, hu, hsk]

/- ----------------------------------------------------------------------
The claims.
---------------------------------------------------------------------- -/

/-- C1: the claim states that the parameter block list passed to the solver
for a reprojection residual is rotation-A, rotation-B, intrinsic, rig-A,
rig-B — the intrinsic third, where the cost function's `Evaluate` reads its
intrinsic parameters.  The code violates this: `addConstraints2DToProblem`
(lines 969-988) pushes the intrinsic block last, after the rig blocks.  With
no rig both orders coincide, but as soon as view A is rig-attached (and not
pose-independent) the third block passed is the 9-double rig block where the
cost function declared the variable-length intrinsic block (lines 404-408 /
276-280) and where `Evaluate` reads `parameters[2]` as intrinsics
(lines 427-431 / 299-303): the declared sizes do not match the passed
blocks, and the parameter resolution cannot interpret the passed layout. -/
theorem C1_intrinsicBlockPosition :
    parametersDirect false false false =
      [BlockLabel.poseA, BlockLabel.poseB, BlockLabel.intrinsic] ∧
    parametersDirect true false false =
      [BlockLabel.poseA, BlockLabel.poseB, BlockLabel.rigA, BlockLabel.intrinsic] ∧
    specParameterLayout true false false =
      [BlockLabel.poseA, BlockLabel.poseB, BlockLabel.intrinsic, BlockLabel.rigA] ∧
    parametersDirect true false false ≠ specParameterLayout true false false ∧
    (parametersDirect true false false).get? 2 = some BlockLabel.rigA ∧
    reprojectionBlockSizes 7 true false false = [9, 9, 7, 9] ∧
    (parametersDirect true false false).map (labelSize 7) = [9, 9, 9, 7] ∧
    (parametersDirect true false false).map (labelSize 7) ≠
      reprojectionBlockSizes 7 true false false ∧
    reprojectionReadParams true false false
      ((parametersDirect true false false).map (labelBlock demoIntrinsics)) = none ∧
    (reprojectionReadParams true false false
      ((specParameterLayout true false false).map (labelBlock demoIntrinsics))).isSome
      = true :=
  ⟨rfl, rfl, rfl, by decide, rfl, by decide, rfl, by decide, rfl, rfl⟩

/-- C2: for the rotation-prior, pinhole and equidistant cost functions, two
views resolving to the identical rig sub-pose block yield exactly one
declared rig parameter block (not two) — visible in the declared block sizes
and in the assembly's block list — and on that single block the returned
jacobian equals the sum of the A-side and the B-side jacobians that the
independent-rig evaluation produces at the same parameter values. -/
theorem C2_sameRigAliasing (dl : Mat3 → Matrix (Fin 3) Flat9 ℝ) (twoRone : Mat3)
    (cam : CameraFns) (fi fj : Vec2) (kv : List ℝ) (G : Nat)
    (iRo jRo rig : Mat3) :
    rotationPriorBlockSizes true true true = [9, 9, 9] ∧
    rotationPriorBlockSizes true true false = [9, 9, 9, 9] ∧
    reprojectionBlockSizes G true true true = [9, 9, G, 9] ∧
    reprojectionBlockSizes G true true false = [9, 9, G, 9, 9] ∧
    rotationPriorParameters true true true =
      [BlockLabel.poseA, BlockLabel.poseB, BlockLabel.rigA] ∧
    (rotationPriorEvaluateCore dl twoRone true true true iRo jRo rig rig).jacRigOne =
      Option.map₂ (· + ·)
        (rotationPriorEvaluateCore dl twoRone true true false iRo jRo rig rig).jacRigOne
        (rotationPriorEvaluateCore dl twoRone true true false iRo jRo rig rig).jacRigTwo ∧
    (pinholeEvaluateCore cam fi fj true true true iRo jRo kv rig rig).jacRigI =
      Option.map₂ (· + ·)
        (pinholeEvaluateCore cam fi fj true true false iRo jRo kv rig rig).jacRigI
        (pinholeEvaluateCore cam fi fj true true false iRo jRo kv rig rig).jacRigJ ∧
    (equidistantEvaluateCore cam fi fj true true true iRo jRo kv rig rig).jacRigI =
      Option.map₂ (· + ·)
        (equidistantEvaluateCore cam fi fj true true false iRo jRo kv rig rig).jacRigI
        (equidistantEvaluateCore cam fi fj true true false iRo jRo kv rig rig).jacRigJ :=
  ⟨rfl, rfl, rfl, rfl, rfl, rfl, rfl, rfl⟩

/-- C3: the rotation-prior residual equals
`logm(((ctwoRtwo·twoRo)·(coneRone·oneRo)ᵗ)·two_R_oneᵗ)` with absent rig
factors the identity, and is the zero vector when the composed relative
rotation equals the measured rotation exactly — verified for the
configurations no-rig, rig on view one, two distinct rigs and shared rig.
But with a rig on view two only, `Evaluate` reads `parameters[3]` while the
constructor declared (and the assembly passes) only 3 blocks (lines 193-196,
205): the access is past the declared parameter blocks (modelled as a failed
read), so the claim's formula does not hold in that fourth one-sided
configuration — a code defect, since the sibling reprojection evaluators
shift the rig index when view one has no rig (lines 511-517). -/
theorem C3_rotationPriorResidual (dl : Mat3 → Matrix (Fin 3) Flat9 ℝ)
    (twoRone oneRo twoRo rigOne rigTwo rig coneRone ctwoRtwo : Mat3) :
    (rotationPriorEvaluate dl twoRone false false false [oneRo, twoRo]).map
        RotationPriorOutput.residual =
      some (logm ((twoRo * oneRo.transpose) * twoRone.transpose)) ∧
    (rotationPriorEvaluate dl twoRone true false false [oneRo, twoRo, rigOne]).map
        RotationPriorOutput.residual =
      some (logm ((twoRo * (rigOne * oneRo).transpose) * twoRone.transpose)) ∧
    (rotationPriorEvaluate dl twoRone true true false [oneRo, twoRo, rigOne, rigTwo]).map
        RotationPriorOutput.residual =
      some (logm (((rigTwo * twoRo) * (rigOne * oneRo).transpose) * twoRone.transpose)) ∧
    (rotationPriorEvaluate dl twoRone true true true [oneRo, twoRo, rig]).map
        RotationPriorOutput.residual =
      some (logm (((rig * twoRo) * (rig * oneRo).transpose) * twoRone.transpose)) ∧
    (∀ wOne wTwo wSame : Bool,
      (ctwoRtwo * twoRo) * (coneRone * oneRo).transpose = twoRone →
      twoRone * twoRone.transpose = 1 →
      (rotationPriorEvaluateCore dl twoRone wOne wTwo wSame
        oneRo twoRo coneRone ctwoRtwo).residual = 0) ∧
    rotationPriorEvaluate dl twoRone false true false [oneRo, twoRo, rigTwo] = none := by
  refine ⟨?_, ?_, ?_, ?_, ?_, rfl⟩
  · show some ((rotationPriorEvaluateCore dl twoRone false false false
      oneRo twoRo 1 1).residual) = _
    simp only [rotationPriorEvaluateCore, Matrix.one_mul]
  · show some ((rotationPriorEvaluateCore dl twoRone true false false
      oneRo twoRo rigOne 1).residual) = _
    simp only [rotationPriorEvaluateCore, Matrix.one_mul]
  · show some ((rotationPriorEvaluateCore dl twoRone true true false
      oneRo twoRo rigOne rigTwo).residual) = _
    simp only [rotationPriorEvaluateCore]
  · show some ((rotationPriorEvaluateCore dl twoRone true true true
      oneRo twoRo rig rig).residual) = _
    simp only [rotationPriorEvaluateCore]
  · intro wOne wTwo wSame h1 h2
    simp only [rotationPriorEvaluateCore]
    rw [h1, h2, logm_one]

/-- Witness for C3: at the identity everywhere (a prior matched exactly) the
rotation-prior residual vanishes. -/
theorem C3_rotationPriorResidual_witness :
    (rotationPriorEvaluateCore (fun _ => 0) 1 false false false 1 1 1 1).residual = 0 :=
  (C3_rotationPriorResidual (fun _ => 0) 1 1 1 1 1 1 1 1).2.2.2.2.1 false false false
    (by simp) (by simp)

/-- C4: for every global parameter size G ≥ 4, every focal ratio and every
one of the 16 lock-flag combinations, the constructed
`IntrinsicsParameterization` satisfies `GlobalSize() = G` and `LocalSize()`
equal to: 0 if focal is locked else (1 if the focal ratio is locked else 2),
plus 2 if center is unlocked, plus G - 4 if distortion is unlocked. -/
theorem C4_localSize (G : Nat) (hG : 4 ≤ G) (ratio : ℝ) (lf lfr lc ld : Bool) :
    (IntrinsicsParameterization.mk G ratio lf lfr lc ld).GlobalSize = G ∧
    (IntrinsicsParameterization.mk G ratio lf lfr lc ld).LocalSize =
      (if lf then 0 else if lfr then 1 else 2) + (if lc then 0 else 2) +
        (if ld then 0 else G - 4) := by
  refine ⟨rfl, ?_⟩
  cases lf <;> cases lfr <;> cases lc <;> cases ld <;>
    simp [IntrinsicsParameterization.LocalSize, IntrinsicsParameterization.localSize,
      IntrinsicsParameterization.distortionSize]

/-- Witness for C4 at G = 7 (an equidistant parameter block) with every
group unlocked. -/
theorem C4_localSize_witness :
    (IntrinsicsParameterization.mk 7 (2 : ℝ) false false false false).GlobalSize = 7 ∧
    (IntrinsicsParameterization.mk 7 (2 : ℝ) false false false false).LocalSize =
      (if false then 0 else if false then 1 else 2) + (if false then 0 else 2) +
        (if false then 0 else 7 - 4) :=
  C4_localSize 7 (by decide) 2 false false false false

/-- C6: every 2D constraint whose shared intrinsic is equidistant or pinhole
contributes exactly two residual blocks (the direct one and the
observation-swapped symmetric one), each carrying a Huber loss built with
scale parameter 8 squared; every rotation prior contributes exactly one
residual block with no robust loss. -/
theorem C6_residualBlocks (cs : List Constraint2DRec) (priors : List RotationPriorRec)
    (hc : ∀ c ∈ cs, c.camKind ≠ CameraKind.other) :
    (addConstraints2DBlocks cs).length = 2 * cs.length ∧
    (∀ b ∈ addConstraints2DBlocks cs,
      b.loss = some (LossFunctionKind.huber ((8 : ℝ) ^ 2))) ∧
    (addRotationPriorBlocks priors).length = priors.length ∧
    (∀ b ∈ addRotationPriorBlocks priors, b.loss = none) := by
  have hsq : Square 8 = (8 : ℝ) ^ 2 := by
    simp [Square]
    ring
  refine ⟨addConstraints2DBlocks_length cs hc, ?_, ?_, ?_⟩
  · intro b hb
    rw [← hsq]
    exact addConstraints2DBlocks_loss cs b hb
  · simp [addRotationPriorBlocks]
  · intro b hb
    rcases List.mem_map.mp hb with ⟨p, _, rfl⟩
    rfl

/-- Witness for C6: one pinhole constraint yields two Huber-loss blocks, one
prior yields one loss-free block. -/
theorem C6_residualBlocks_witness :
    (addConstraints2DBlocks [⟨CameraKind.pinhole, false, false, false⟩]).length =
      2 * [(⟨CameraKind.pinhole, false, false, false⟩ : Constraint2DRec)].length ∧
    (∀ b ∈ addConstraints2DBlocks [⟨CameraKind.pinhole, false, false, false⟩],
      b.loss = some (LossFunctionKind.huber ((8 : ℝ) ^ 2))) ∧
    (addRotationPriorBlocks [⟨false, false, false⟩]).length =
      [(⟨false, false, false⟩ : RotationPriorRec)].length ∧
    (∀ b ∈ addRotationPriorBlocks [⟨false, false, false⟩], b.loss = none) :=
  C6_residualBlocks [⟨CameraKind.pinhole, false, false, false⟩] [⟨false, false, false⟩]
    (by decide)

/-- C8: when the solver reports the solution not usable, `adjust` returns
false and the scene exactly as it was — the write-back is never reached. -/
theorem C8_adjustUnusable (scene : SfMScene) (opts : RefineOptions)
    (pb : Nat → Mat3) (ib : Nat → Option (List ℝ))
    (ps istate : Nat → EParameterState) (summary : SolverSummary)
    (h : summary.isSolutionUsable = false) :
    adjust scene opts pb ib ps istate summary = (false, scene) := by
  simp [adjust, h]

/-- Witness for C8: a concrete failed solve leaves the demonstration scene
untouched. -/
theorem C8_adjustUnusable_witness :
    adjust demoScene allRefineOptions (fun _ => 1) (fun _ => none)
      (fun _ => EParameterState.refined) (fun _ => EParameterState.refined)
      failedSummary = (false, demoScene) :=
  C8_adjustUnusable demoScene allRefineOptions (fun _ => 1) (fun _ => none)
    (fun _ => EParameterState.refined) (fun _ => EParameterState.refined) failedSummary rfl

/-- C9: the fixed header line is written exactly when the file is empty
after seeking to the end; every call appends exactly one data line; a
sequence of calls on a fresh file yields the header once followed by one
data line per call — in particular two calls on a fresh file give exactly
one header line and two data lines. -/
theorem C9_exportToFile (file : List StatLine) (s s1 s2 : PanoramaStatistics)
    (l : List PanoramaStatistics) :
    (file.isEmpty = true → exportToFile file s = [StatLine.header, StatLine.data s]) ∧
    (file.isEmpty = false → exportToFile file s = file ++ [StatLine.data s]) ∧
    (l ≠ [] → l.foldl exportToFile [] = StatLine.header :: l.map StatLine.data) ∧
    exportToFile (exportToFile [] s1) s2 =
      [StatLine.header, StatLine.data s1, StatLine.data s2] := by
  refine ⟨?_, ?_, ?_, rfl⟩
  · intro h
    have hnil : file = [] := by
      cases file
      · rfl
      · simp at h
    subst hnil
    rfl
  · intro h
    simp [exportToFile, h]
  · intro hl
    cases l with
    | nil => exact absurd rfl hl
    | cons s0 rest =>
      rw [List.foldl_cons]
      have h0 : exportToFile [] s0 = [StatLine.header, StatLine.data s0] := rfl
      rw [h0, exportToFile_foldl_of_ne_nil rest _ (by simp)]
      simp

/-- Witness for C9: two concrete export calls on a fresh file. -/
theorem C9_exportToFile_witness :
    [demoStatistics, demoStatistics].foldl exportToFile [] =
      StatLine.header :: [demoStatistics, demoStatistics].map StatLine.data :=
  (C9_exportToFile [] demoStatistics demoStatistics demoStatistics
    [demoStatistics, demoStatistics]).2.2.1 (by simp)

/-- C10: `updateFromSolution` only writes REFINED entities: a pose whose
state is CONSTANT or IGNORED keeps its scene transform, an intrinsic whose
state is CONSTANT or IGNORED keeps its scene parameters (even though solved
blocks exist for CONSTANT entities), no pose is touched unless rotation or
translation refinement was requested, and no intrinsic is touched unless
some intrinsic refinement was requested. -/
theorem C10_updateFromSolutionFrame (scene : SfMScene) (opts : RefineOptions)
    (pb : Nat → Mat3) (ib : Nat → Option (List ℝ))
    (ps istate : Nat → EParameterState) :
    (∀ id, ps id ≠ EParameterState.refined →
      (updateFromSolution scene opts pb ib ps istate).poses id = scene.poses id) ∧
    ((opts.refineRotation || opts.refineTranslation) = false →
      (updateFromSolution scene opts pb ib ps istate).poses = scene.poses) ∧
    (∀ id, istate id ≠ EParameterState.refined →
      (updateFromSolution scene opts pb ib ps istate).intrinsicParams id =
        scene.intrinsicParams id) ∧
    ((opts.refineFocal || opts.refineDistortion ||
        (opts.refineCenterAlways || opts.refineCenterIfEnoughData)) = false →
      (updateFromSolution scene opts pb ib ps istate).intrinsicParams =
        scene.intrinsicParams) := by
  refine ⟨?_, ?_, ?_, ?_⟩
  · intro id h
    simp [updateFromSolution, h]
  · intro h
    funext id
    simp [updateFromSolution, h]
  · intro id h
    simp [updateFromSolution, h]
  · intro h
    funext id
    simp [updateFromSolution, h]

/-- C5: for every parameter vector `x` of length `GlobalSize()` (at least 4)
and every local delta, `Plus` leaves every locked slice identical to `x`
(entries 0-1 when focal is locked, 2-3 when center is locked, 4..G-1 when
distortion is locked), adds to each unlocked slice its delta entries at the
running `posDelta` position, and — when focal is unlocked with the ratio
locked — writes `x[1] + focalRatio * delta[0]` into entry 1. -/
theorem C5_Plus (P : IntrinsicsParameterization) (x : List ℝ) (delta : Nat → ℝ)
    (hx : x.length = P.globalSize) (hG : 4 ≤ P.globalSize) :
    (P.Plus x delta).length = x.length ∧
    (P.lockFocal = true → (P.Plus x delta).getD 0 0 = x.getD 0 0 ∧
      (P.Plus x delta).getD 1 0 = x.getD 1 0) ∧
    (P.lockFocal = false → (P.Plus x delta).getD 0 0 = x.getD 0 0 + delta 0) ∧
    (P.lockFocal = false → P.lockFocalRatio = true →
      (P.Plus x delta).getD 1 0 = x.getD 1 0 + P.focalRatio * delta 0) ∧
    (P.lockFocal = false → P.lockFocalRatio = false →
      (P.Plus x delta).getD 1 0 = x.getD 1 0 + delta 1) ∧
    (P.lockCenter = true → (P.Plus x delta).getD 2 0 = x.getD 2 0 ∧
      (P.Plus x delta).getD 3 0 = x.getD 3 0) ∧
    (P.lockCenter = false →
      (P.Plus x delta).getD 2 0 = x.getD 2 0 + delta P.focalDeltaSize ∧
      (P.Plus x delta).getD 3 0 = x.getD 3 0 + delta (P.focalDeltaSize + 1)) ∧
    (P.lockDistortion = true →
      ∀ i, (P.Plus x delta).getD (4 + i) 0 = x.getD (4 + i) 0) ∧
    (P.lockDistortion = false → ∀ i, i < P.distortionSize →
      (P.Plus x delta).getD (4 + i) 0 = x.getD (4 + i) 0 + delta (P.centerDeltaEnd + i)) := by
  refine ⟨?_, ?_, ?_, ?_, ?_, ?_, ?_, ?_, ?_⟩
  · cases hld : P.lockDistortion
    · simp only [IntrinsicsParameterization.Plus, hld, Bool.not_false, if_true]
      rw [distortionPlus_length, centerPlus_focal_length]
    · simp only [IntrinsicsParameterization.Plus, hld, Bool.not_true]
      rw [if_neg Bool.false_ne_true, centerPlus_focal_length]
  · intro h
    constructor
    · rw [Plus_getD_head _ _ _ 0 (by omega),
        centerPlus_getD_out _ _ _ _ 0 (by omega) (by omega),
        focalPlus_fst_locked _ _ _ h]
    · rw [Plus_getD_head _ _ _ 1 (by omega),
        centerPlus_getD_out _ _ _ _ 1 (by omega) (by omega),
        focalPlus_fst_locked _ _ _ h]
  · intro h
    rw [Plus_getD_head _ _ _ 0 (by omega),
      centerPlus_getD_out _ _ _ _ 0 (by omega) (by omega),
      focalPlus_getD_zero_unlocked _ _ _ h (by omega)]
  · intro h hr
    rw [Plus_getD_head _ _ _ 1 (by omega),
      centerPlus_getD_out _ _ _ _ 1 (by omega) (by omega),
      focalPlus_getD_one_ratio _ _ _ h hr (by omega)]
  · intro h hr
    rw [Plus_getD_head _ _ _ 1 (by omega),
      centerPlus_getD_out _ _ _ _ 1 (by omega) (by omega),
      focalPlus_getD_one_free _ _ _ h hr (by omega)]
  · intro h
    constructor
    · rw [Plus_getD_head _ _ _ 2 (by omega), centerPlus_fst_locked _ _ _ _ h,
        focalPlus_getD_ge _ _ _ 2 (by omega)]
    · rw [Plus_getD_head _ _ _ 3 (by omega), centerPlus_fst_locked _ _ _ _ h,
        focalPlus_getD_ge _ _ _ 3 (by omega)]
  · intro h
    constructor
    · rw [Plus_getD_head _ _ _ 2 (by omega),
        centerPlus_getD_two_unlocked _ _ _ _ h (by rw [focalPlus_length]; omega),
        focalPlus_snd]
    · rw [Plus_getD_head _ _ _ 3 (by omega),
        centerPlus_getD_three_unlocked _ _ _ _ h (by rw [focalPlus_length]; omega),
        focalPlus_snd]
  · intro h i
    simp only [IntrinsicsParameterization.Plus, h, Bool.not_true]
    rw [if_neg Bool.false_ne_true,
      centerPlus_getD_out _ _ _ _ (4 + i) (by omega) (by omega),
      focalPlus_getD_ge _ _ _ (4 + i) (by omega)]
  · intro h i hi
    simp only [IntrinsicsParameterization.Plus, h, Bool.not_false, if_true]
    rw [centerPlus_focal_snd,
      distortionPlus_getD_hit x delta _ _ _ i hi
        (by rw [centerPlus_focal_length, hx]
            simp only [IntrinsicsParameterization.distortionSize]
            omega)]

/-- Witness for C5: on the demonstration parameterization (focal unlocked,
ratio locked at 2) entry 1 of `Plus` receives `x[1] + 2 * delta[0]`. -/
theorem C5_Plus_witness :
    (demoParamization.Plus demoX demoDelta).getD 1 0 =
      demoX.getD 1 0 + demoParamization.focalRatio * demoDelta 0 :=
  (C5_Plus demoParamization demoX demoDelta rfl (by decide)).2.2.2.1 rfl rfl

/-- C7 counterexample: a scene holding one intrinsic and no view at all.
The intrinsic is used by zero reconstructed views, and the claim states it
is skipped and "counted in the statistics under (INTRINSIC, IGNORED) …
including an intrinsic referenced by no view at all" — but the loop's first
guard (lines 803-806) skips an intrinsic with no usage entry silently: no
block is registered and the IGNORED counter stays 0, not 1. -/
theorem C7_counterexample :
    (addIntrinsicsToProblem [] [(0, { params := [1, 1, 0, 0], locked := false })]
      (fun _ => EParameterState.refined) allRefineOptions).blocks = [] ∧
    (addIntrinsicsToProblem [] [(0, { params := [1, 1, 0, 0], locked := false })]
      (fun _ => EParameterState.refined) allRefineOptions).ignoredCount = 0 :=
  ⟨rfl, rfl⟩

/-- C7 (amended): during `addIntrinsicsToProblem`, an intrinsic referenced
by at least one view but used by zero reconstructed views, or whose queried
state is IGNORED, is skipped — no parameter block is registered for it —
and it is counted under (INTRINSIC, IGNORED); an intrinsic referenced by no
view at all is also skipped without a block, but contributes no statistics
entry.  The usage map is characterized against the scene's views: absent
exactly when no view references the id, and otherwise the number of
reconstructed views using it. -/
theorem C7_addIntrinsicsSkipping (views : List ViewRec)
    (intrinsics : List (Nat × IntrinsicRec)) (state : Nat → EParameterState)
    (opts : RefineOptions) :
    (∀ id, intrinsicsUsage views id = none ↔ ∀ v ∈ views, v.intrinsicId ≠ id) ∧
    (∀ id c, intrinsicsUsage views id = some c →
      c = views.countP (fun v => v.intrinsicId == id && v.reconstructed)) ∧
    (∀ id, (intrinsicsUsage views id = none ∨
        ∃ c, intrinsicsUsage views id = some c ∧
          (c = 0 ∨ state id = EParameterState.ignored)) →
      ∀ q ∈ (addIntrinsicsToProblem views intrinsics state opts).blocks, q.1 ≠ id) ∧
    (addIntrinsicsToProblem views intrinsics state opts).ignoredCount =
      intrinsics.countP (fun p =>
        match intrinsicsUsage views p.1 with
        | some c => decide (c = 0 ∨ state p.1 = EParameterState.ignored)
        | none => false) := by
  refine ⟨intrinsicsUsage_eq_none_iff views,
    fun id c => intrinsicsUsage_count views id c, ?_, ?_⟩
  · intro id hid
    exact addIntrinsicsLoop_skip _ _ _ intrinsics id hid
  · exact addIntrinsicsLoop_ignoredCount _ _ _ intrinsics

/-- Witness for C7: one reconstructed view referencing intrinsic 0 gives a
usage count of 1. -/
theorem C7_addIntrinsicsSkipping_witness :
    (1 : Nat) = [({ intrinsicId := 0, reconstructed := true } : ViewRec)].countP
      (fun v => v.intrinsicId == 0 && v.reconstructed) :=
  (C7_addIntrinsicsSkipping [{ intrinsicId := 0, reconstructed := true }] []
    (fun _ => EParameterState.refined) allRefineOptions).2.1 0 1 rfl

/-- Witness for C10: with every state CONSTANT, a concrete update leaves
pose 0 of the demonstration scene in place. -/
theorem C10_updateFromSolutionFrame_witness :
    (updateFromSolution demoScene allRefineOptions (fun _ => 1) (fun _ => none)
      (fun _ => EParameterState.constant) (fun _ => EParameterState.constant)).poses 0 =
      demoScene.poses 0 :=
  (C10_updateFromSolutionFrame demoScene allRefineOptions (fun _ => 1) (fun _ => none)
    (fun _ => EParameterState.constant) (fun _ => EParameterState.constant)).1 0 (by decide)

end PanoramaBA
